import Mathlib

/-!
Verification of the viewfinder repository.

This file shallowly embeds the Python modules
`src/backend/src/proj_math/orientation.py` and
`src/backend/arduino_app/working_arduino_app/python/proj_math/rotation_agent.py`
together with the find-star slice of
`src/backend/arduino_app/working_arduino_app/python/main.py`,
and settles the frozen claims C1 through C10 about them.

Float values are modelled as exact rationals (for the orientation tracker,
whose arithmetic is +, -, *, %, clip) or as real numbers (for the
trigonometric projection pipeline).  NaN is modelled explicitly where a
claim is about it: the type `FQ := Option ℚ` uses `none` for NaN, and the
arithmetic on `FQ` follows IEEE NaN propagation for the operations the
source uses.
-/

namespace Viewfinder

/-! ### Float-with-NaN scalars for the orientation tracker -/

/-- A gyro scalar: `none` models IEEE NaN, `some q` a finite float value
(represented exactly as a rational). -/
def FQ : Type := Option ℚ

instance : DecidableEq FQ :=
  inferInstanceAs (DecidableEq (Option ℚ))

/-- NaN-propagating addition. -/
def fadd : FQ → FQ → FQ
  | some a, some b => some (a + b)
  | _, _ => none

/-- NaN-propagating subtraction. -/
def fsub : FQ → FQ → FQ
  | some a, some b => some (a - b)
  | _, _ => none

/-- NaN-propagating multiplication. -/
def fmul : FQ → FQ → FQ
  | some a, some b => some (a * b)
  | _, _ => none

/-- The comparison `abs x < c` as Python evaluates it on floats:
false whenever `x` is NaN (IEEE comparisons with NaN are false). -/
def fabsLt (x : FQ) (c : ℚ) : Bool :=
  match x with
  | some a => decide (|a| < c)
  | none => false

/-- Python float `x % m` for a positive modulus `m`:
`x - m * floor(x / m)`, which lands in `[0, m)`; NaN propagates. -/
def fmod (x : FQ) (m : ℚ) : FQ :=
  x.map fun a => a - m * ⌊a / m⌋

/-- `np.clip(x, lo, hi)`; propagates NaN like numpy. -/
def fclip (x : FQ) (lo hi : ℚ) : FQ :=
  x.map fun a => min (max a lo) hi

/-! ### OrientationTracker (`src/backend/src/proj_math/orientation.py`) -/

/-- `YAW_SIGN` from `OrientationTracker.__init__`. -/
def YAW_SIGN : ℚ := 1

/-- `PITCH_SIGN` from `OrientationTracker.__init__`. -/
def PITCH_SIGN : ℚ := 1

/-- `ROLL_SIGN` from `OrientationTracker.__init__`. -/
def ROLL_SIGN : ℚ := 1

/-- State of an `OrientationTracker` instance.  `hasLast` models
`_last_time is not None` (the actual timestamp is irrelevant: the elapsed
time `dt` is passed to `update` explicitly).  Bias fields are finite
floats, modelled as rationals. -/
structure TrackerState where
  yaw : FQ
  pitch : FQ
  roll : FQ
  bias_x : ℚ
  bias_y : ℚ
  bias_z : ℚ
  hasLast : Bool
  calibrated : Bool
deriving DecidableEq

/-- The dead-zone step `g = 0.0 if abs(g) < 0.5 else g` of
`OrientationTracker.update`.  For NaN the comparison is false, so NaN
passes through. -/
def dead_zone (g : FQ) : FQ :=
  if fabsLt g (1 / 2) then some 0 else g

/-- `OrientationTracker.update(gx, gy, gz)`.  `dt` is the elapsed time
`now - self._last_time` computed inside the source; the axis map is
yaw ← z, pitch ← x, roll ← y with all signs `1`, exactly as set in
`__init__`.  Returns the new state; the source returns
`(self.yaw, self.pitch, self.roll)`, i.e. the stored fields of the new
state. -/
def update (st : TrackerState) (gx gy gz : FQ) (dt : FQ) : TrackerState :=
  if st.hasLast = false then
    { st with hasLast := true }
  else
    let gx1 := dead_zone (fsub gx (some st.bias_x))
    let gy1 := dead_zone (fsub gy (some st.bias_y))
    let gz1 := dead_zone (fsub gz (some st.bias_z))
    let yaw1 := fadd st.yaw (fmul (fmul (some YAW_SIGN) gz1) dt)
    let pitch1 := fadd st.pitch (fmul (fmul (some PITCH_SIGN) gx1) dt)
    let roll1 := fadd st.roll (fmul (fmul (some ROLL_SIGN) gy1) dt)
    { st with
      yaw := fmod yaw1 360
      pitch := fclip pitch1 (-90) 90
      roll := fsub (fmod (fadd roll1 (some 180)) 360) (some 180) }

/-- `OrientationTracker.calibrate`: the sensor-sampling loop is abstracted
by passing the three lists of collected samples; the bias of each axis is
`np.mean(samples)`, i.e. sum divided by length, and `_last_time` is set. -/
def calibrate (st : TrackerState) (sx sy sz : List ℚ) : TrackerState :=
  { st with
    bias_x := sx.sum / sx.length
    bias_y := sy.sum / sy.length
    bias_z := sz.sum / sz.length
    hasLast := true
    calibrated := true }

/-- A tracker state with zero angles, zero biases and `_last_time` set. -/
def s0 : TrackerState :=
  { yaw := some 0, pitch := some 0, roll := some 0
    bias_x := 0, bias_y := 0, bias_z := 0
    hasLast := true, calibrated := true }

noncomputable section

open Matrix

open scoped Classical

/-- `np.radians(d)`: degrees to radians. -/
def radians (d : ℝ) : ℝ := d * Real.pi / 180

/-- `np.degrees(r)`: radians to degrees. -/
def degrees (r : ℝ) : ℝ := r * 180 / Real.pi

/-- `rot_x(angle_rad)`: rotation matrix around the X axis (pitch). -/
def rot_x (t : ℝ) : Matrix (Fin 3) (Fin 3) ℝ :=
  !![1, 0, 0;
     0, Real.cos t, -Real.sin t;
     0, Real.sin t, Real.cos t]

/-- `rot_y(angle_rad)`: rotation matrix around the Y axis (yaw). -/
def rot_y (t : ℝ) : Matrix (Fin 3) (Fin 3) ℝ :=
  !![Real.cos t, 0, Real.sin t;
     0, 1, 0;
     -Real.sin t, 0, Real.cos t]

/-- `rot_z(angle_rad)`: rotation matrix around the Z axis (roll). -/
def rot_z (t : ℝ) : Matrix (Fin 3) (Fin 3) ℝ :=
  !![Real.cos t, -Real.sin t, 0;
     Real.sin t, Real.cos t, 0;
     0, 0, 1]

/-- `gyro_to_rotation_matrix(yaw_deg, pitch_deg, roll_deg)`:
`rot_z(roll) @ rot_x(pitch) @ rot_y(yaw)` with the angles converted to
radians. -/
def gyro_to_rotation_matrix (yaw_deg pitch_deg roll_deg : ℝ) :
    Matrix (Fin 3) (Fin 3) ℝ :=
  rot_z (radians roll_deg) * rot_x (radians pitch_deg) * rot_y (radians yaw_deg)

/-- Python `int(x)` / numpy `.astype(int)`: truncation toward zero. -/
def truncR (x : ℝ) : ℤ := if x < 0 then ⌈x⌉ else ⌊x⌋

/-- `np.clip(x, lo, hi)` on real scalars. -/
def clipR (x lo hi : ℝ) : ℝ := min (max x lo) hi

/-- `project_to_normalized_2d` for a single star at camera coordinates
`(x, y, z)`.  Mirrors the source elementwise: `in_front` is `z > 0`, the
perspective divide substitutes `1e-9` for a `z` of exactly 0, the FOV
half-angle is `tan(radians(fov_deg / 2))`, and visibility is
`in_front ∧ |x_proj| ≤ half_fov ∧ |y_proj| ≤ half_fov`.  Returns the
normalized 2D point and the visibility flag. -/
def project_to_normalized_2d (x y z fov_deg : ℝ) : (ℝ × ℝ) × Prop :=
  let in_front := 0 < z
  let zs := if z = 0 then 1e-9 else z
  let x_proj := x / zs
  let y_proj := y / zs
  let half_fov := Real.tan (radians (fov_deg / 2))
  ((x_proj / half_fov, y_proj / half_fov),
   in_front ∧ |x_proj| ≤ half_fov ∧ |y_proj| ≤ half_fov)

/-- `normalize_to_led_pixels` for a single star: a masked-out star is
`(-1, -1)`; a visible one is mapped by
`clip(int((x+1)/2*cols), 0, cols-1)` and
`clip(int((1-(y+1)/2)*rows), 0, rows-1)`. -/
def normalize_to_led_pixel (px py : ℝ) (vis : Prop) (cols rows : ℤ) :
    ℤ × ℤ :=
  if vis then
    (min (max (truncR ((px + 1) / 2 * cols)) 0) (cols - 1),
     min (max (truncR ((1 - (py + 1) / 2) * rows)) 0) (rows - 1))
  else (-1, -1)

/-- `build_led_frame`: cell `(r, c)` is on iff some visible pixel
`(col, row)` of the input list has `col = c`, `row = r` and lies inside
the `rows × cols` grid, exactly the in-bounds guard of the source loop. -/
def build_led_frame (pixels : List ((ℤ × ℤ) × Bool)) (cols rows : ℤ)
    (r c : ℤ) : Prop :=
  ∃ p ∈ pixels, p.2 = true ∧ p.1.1 = c ∧ p.1.2 = r ∧
    0 ≤ r ∧ r < rows ∧ 0 ≤ c ∧ c < cols

/-! ### Direction finder (`get_direction_to_star`) and the find-star slice
of `working_arduino_app/python/main.py` -/

/-- `np.arctan2(y, x)`: the argument of the point `(x, y)`, in `(-π, π]`. -/
def atan2 (y x : ℝ) : ℝ := Complex.arg ⟨x, y⟩

/-- A value stored in the Python dict returned by `get_direction_to_star`:
a float or a bool. -/
inductive PyVal where
  | real (x : ℝ)
  | flag (p : Prop)

/-- The literal key `"angle"` of the returned dict. -/
def angle_key : String := "angle"

/-- The literal key `"in_view"` of the returned dict. -/
def in_view_key : String := "in_view"

/-- The literal key `"distance"` that `record_sensor_gyro` reads from the
direction dict. -/
def distance_key : String := "distance"

/-- `camera_matrix @ target_xyz` inside `get_direction_to_star`. -/
def star_camera (tx ty tz yaw pitch roll : ℝ) : Fin 3 → ℝ :=
  (gyro_to_rotation_matrix yaw pitch roll).mulVec ![tx, ty, tz]

/-- The `in_view` flag of `get_direction_to_star`: set iff `cam[2] > 0`
and both `|cam[0]/cam[2]|` and `|cam[1]/cam[2]|` are at most
`tan(radians(fov_deg / 2))`. -/
def dir_in_view (tx ty tz yaw pitch roll fov : ℝ) : Prop :=
  0 < star_camera tx ty tz yaw pitch roll 2 ∧
  |star_camera tx ty tz yaw pitch roll 0 /
      star_camera tx ty tz yaw pitch roll 2| ≤
    Real.tan (radians (fov / 2)) ∧
  |star_camera tx ty tz yaw pitch roll 1 /
      star_camera tx ty tz yaw pitch roll 2| ≤
    Real.tan (radians (fov / 2))

/-- The `angle` value of `get_direction_to_star`:
`degrees(arctan2(cam[1], cam[0]))`. -/
def dir_angle (tx ty tz yaw pitch roll : ℝ) : ℝ :=
  degrees (atan2 (star_camera tx ty tz yaw pitch roll 1)
    (star_camera tx ty tz yaw pitch roll 0))

/-- `get_direction_to_star(target_xyz, yaw, pitch, roll, fov)`: returns
the dict `{"angle": angle, "in_view": in_view}`, modelled as an
association list.  Note the source returns exactly these two keys. -/
def get_direction_to_star (tx ty tz yaw pitch roll fov : ℝ) :
    List (String × PyVal) :=
  [(angle_key, PyVal.real (dir_angle tx ty tz yaw pitch roll)),
   (in_view_key, PyVal.flag (dir_in_view tx ty tz yaw pitch roll fov))]

/-- Modelled from the spec: the `distance` field of `bearingTo`, which is
missing from `get_direction_to_star` in the source — the spec defines it
as the angular separation `acos(clamp(z, -1, 1))` in degrees. -/
def spec_distance (z : ℝ) : ℝ := degrees (Real.arccos (clipR z (-1) 1))

/-- The find-star branch of `record_sensor_gyro` in `main.py` for one gyro
sample, given the current lock state.  When the lock is active
(`find_star_mode` and a target), the code computes the direction dict and
immediately evaluates `direction["distance"]` for `Bridge.notify`; that
key lookup is modelled with `List.lookup`: `none` is a `KeyError`, which
the surrounding `except` swallows, skipping the `star_found` emission.
Returns the new `find_star_mode` and the number of `star_found` messages
emitted; no branch of the source ever assigns `find_star_mode`. -/
def record_gyro_find_step (target : Option (ℝ × ℝ × ℝ)) (mode : Bool)
    (yaw pitch roll : ℝ) : Bool × ℕ :=
  match mode, target with
  | true, some t =>
    match (get_direction_to_star t.1 t.2.1 t.2.2 yaw pitch roll 30).lookup
        distance_key with
    | none => (true, 0)
    | some _ =>
      (true, if dir_in_view t.1 t.2.1 t.2.2 yaw pitch roll 30 then 1 else 0)
  | _, _ => (mode, 0)

/-- `cancel_find_star` from `main.py`: clears the mode and the target. -/
def cancel_find_star : Bool × Option (ℝ × ℝ × ℝ) →
    Bool × Option (ℝ × ℝ × ℝ) :=
  fun _ => (false, none)

/-! ### Direction arrow rendering (`_bresenham`, `build_direction_frame`) -/

/-- The `while True` loop of `_bresenham`, with enough fuel to reach the
endpoint (each pass before the endpoint advances `r` or `c` by one toward
it, so `|r1 - r0| + |c1 - c0| + 1` passes suffice).  Arguments after the
fuel are the loop variables `r`, `c`, `err`. -/
def bresAux (r1 c1 dr dc sr sc : ℤ) : ℕ → ℤ → ℤ → ℤ → List (ℤ × ℤ)
  | 0, _, _, _ => []
  | n + 1, r, c, err =>
    (r, c) ::
      (if r = r1 ∧ c = c1 then []
       else
         let e2 := 2 * err
         let c2 := if e2 > -dr then c + sc else c
         let err2 := if e2 > -dr then err - dr else err
         let r2 := if e2 < dc then r + sr else r
         let err3 := if e2 < dc then err2 + dc else err2
         bresAux r1 c1 dr dc sr sc n r2 c2 err3)

/-- `_bresenham(r0, c0, r1, c1)`: the list of pixels along the line. -/
def bresenham (r0 c0 r1 c1 : ℤ) : List (ℤ × ℤ) :=
  bresAux r1 c1 (|r1 - r0|) (|c1 - c0|)
    (if r0 < r1 then 1 else -1) (if c0 < c1 then 1 else -1)
    ((|r1 - r0| + |c1 - c0|).toNat + 1) r0 c0 (|c1 - c0| - |r1 - r0|)

/-- `dx = cos(angle_rad)` in `build_direction_frame`. -/
def dir_dx (angle_deg : ℝ) : ℝ := Real.cos (radians angle_deg)

/-- `dy = -sin(angle_rad)` in `build_direction_frame` (screen y grows
downward). -/
def dir_dy (angle_deg : ℝ) : ℝ := -Real.sin (radians angle_deg)

/-- `cx = (cols - 1) / 2.0`. -/
def dir_cx (cols : ℤ) : ℝ := ((cols : ℝ) - 1) / 2

/-- `cy = (rows - 1) / 2.0`. -/
def dir_cy (rows : ℤ) : ℝ := ((rows : ℝ) - 1) / 2

/-- `max_t` after the two `dx` branches of the ray cast. -/
def dir_t1 (angle_deg : ℝ) (cols : ℤ) : ℝ :=
  if dir_dx angle_deg > 1e-9 then
    min 1e9 (((cols : ℝ) - 1 - dir_cx cols) / dir_dx angle_deg)
  else if dir_dx angle_deg < -1e-9 then
    min 1e9 (-(dir_cx cols) / dir_dx angle_deg)
  else 1e9

/-- `max_t` after both the `dx` and the `dy` branches of the ray cast. -/
def dir_max_t (angle_deg : ℝ) (cols rows : ℤ) : ℝ :=
  if dir_dy angle_deg > 1e-9 then
    min (dir_t1 angle_deg cols)
      (((rows : ℝ) - 1 - dir_cy rows) / dir_dy angle_deg)
  else if dir_dy angle_deg < -1e-9 then
    min (dir_t1 angle_deg cols) (-(dir_cy rows) / dir_dy angle_deg)
  else dir_t1 angle_deg cols

/-- `tip_c = int(np.clip(cx + dx * max_t, 0, cols - 1) + 0.5)`. -/
def dir_tip_c (angle_deg : ℝ) (cols rows : ℤ) : ℤ :=
  truncR (clipR (dir_cx cols + dir_dx angle_deg * dir_max_t angle_deg cols rows)
    0 ((cols : ℝ) - 1) + 0.5)

/-- `tip_r = int(np.clip(cy + dy * max_t, 0, rows - 1) + 0.5)`. -/
def dir_tip_r (angle_deg : ℝ) (cols rows : ℤ) : ℤ :=
  truncR (clipR (dir_cy rows + dir_dy angle_deg * dir_max_t angle_deg cols rows)
    0 ((rows : ℝ) - 1) + 0.5)

/-- `ctr_c = int(cx + 0.5)`. -/
def dir_ctr_c (cols : ℤ) : ℤ := truncR (dir_cx cols + 0.5)

/-- `ctr_r = int(cy + 0.5)`. -/
def dir_ctr_r (rows : ℤ) : ℤ := truncR (dir_cy rows + 0.5)

/-- `barb_angle = angle_rad + pi + sign * (pi / 4)`. -/
def dir_barb_angle (angle_deg sign : ℝ) : ℝ :=
  radians angle_deg + Real.pi + sign * (Real.pi / 4)

/-- `barb_c = int(np.clip(tip_c + cos(barb_angle) * head_len, 0, cols - 1)
+ 0.5)` with `head_len = 3.0`. -/
def dir_barb_c (angle_deg : ℝ) (cols rows : ℤ) (sign : ℝ) : ℤ :=
  truncR (clipR ((dir_tip_c angle_deg cols rows : ℝ) +
    Real.cos (dir_barb_angle angle_deg sign) * 3.0) 0 ((cols : ℝ) - 1) + 0.5)

/-- `barb_r = int(np.clip(tip_r - sin(barb_angle) * head_len, 0, rows - 1)
+ 0.5)` with `head_len = 3.0`. -/
def dir_barb_r (angle_deg : ℝ) (cols rows : ℤ) (sign : ℝ) : ℤ :=
  truncR (clipR ((dir_tip_r angle_deg cols rows : ℝ) -
    Real.sin (dir_barb_angle angle_deg sign) * 3.0) 0 ((rows : ℝ) - 1) + 0.5)

/-- `build_direction_frame(direction, cols, rows)` as the set of lit
cells: the shaft from the center to the tip plus the two chevron barbs
(the `sign in (-1, 1)` loop), each drawn with `_bresenham`. -/
def build_direction_frame (angle_deg : ℝ) (cols rows : ℤ) (r c : ℤ) :
    Prop :=
  (r, c) ∈ bresenham (dir_ctr_r rows) (dir_ctr_c cols)
      (dir_tip_r angle_deg cols rows) (dir_tip_c angle_deg cols rows) ∨
  (r, c) ∈ bresenham (dir_tip_r angle_deg cols rows)
      (dir_tip_c angle_deg cols rows)
      (dir_barb_r angle_deg cols rows (-1))
      (dir_barb_c angle_deg cols rows (-1)) ∨
  (r, c) ∈ bresenham (dir_tip_r angle_deg cols rows)
      (dir_tip_c angle_deg cols rows)
      (dir_barb_r angle_deg cols rows 1) (dir_barb_c angle_deg cols rows 1)

/-! ### Lemmas and claim theorems -/

lemma fadd_some (a b : ℚ) : fadd (some a) (some b) = some (a + b) := rfl

lemma fsub_some (a b : ℚ) : fsub (some a) (some b) = some (a - b) := rfl

lemma fmul_some (a b : ℚ) : fmul (some a) (some b) = some (a * b) := rfl

lemma fmod_some (a m : ℚ) : fmod (some a) m = some (a - m * ⌊a / m⌋) := rfl

lemma fclip_some (a lo hi : ℚ) :
    fclip (some a) lo hi = some (min (max a lo) hi) := rfl

/-! ### Arithmetic facts about the wrap and clamp steps -/

lemma floor_mod_nonneg_lt (a m : ℚ) (hm : 0 < m) :
    0 ≤ a - m * ⌊a / m⌋ ∧ a - m * ⌊a / m⌋ < m := by
  have h1 : (⌊a / m⌋ : ℚ) ≤ a / m := Int.floor_le _
  have h2 : a / m < ⌊a / m⌋ + 1 := Int.lt_floor_add_one _
  constructor
  · have := mul_le_mul_of_nonneg_left h1 (le_of_lt hm)
    rw [mul_div_cancel₀ a (ne_of_gt hm)] at this
    linarith
  · have := mul_lt_mul_of_pos_left h2 hm
    rw [mul_div_cancel₀ a (ne_of_gt hm)] at this
    linarith

lemma floor_mod_id (a m : ℚ) (h0 : 0 ≤ a) (h1 : a < m) :
    a - m * ⌊a / m⌋ = a := by
  have hm : 0 < m := lt_of_le_of_lt h0 h1
  have : ⌊a / m⌋ = 0 := by
    rw [Int.floor_eq_zero_iff]
    constructor
    · exact div_nonneg h0 (le_of_lt hm)
    · rw [div_lt_one hm]; exact h1
  rw [this]; ring

/-- Unfolding `update` on a state with `_last_time` set: the three stored
angle fields after the integrate/wrap/clamp steps. -/
lemma update_fields (st : TrackerState) (gx gy gz dt : FQ)
    (h : st.hasLast = true) :
    (update st gx gy gz dt).yaw =
      fmod (fadd st.yaw (fmul (fmul (some YAW_SIGN)
        (dead_zone (fsub gz (some st.bias_z)))) dt)) 360 ∧
    (update st gx gy gz dt).pitch =
      fclip (fadd st.pitch (fmul (fmul (some PITCH_SIGN)
        (dead_zone (fsub gx (some st.bias_x)))) dt)) (-90) 90 ∧
    (update st gx gy gz dt).roll =
      fsub (fmod (fadd (fadd st.roll (fmul (fmul (some ROLL_SIGN)
        (dead_zone (fsub gy (some st.bias_y)))) dt)) (some 180)) 360)
        (some 180) := by
  unfold update
  rw [h]
  exact ⟨rfl, rfl, rfl⟩

/-- The dead zone maps a finite value to a finite value. -/
lemma dead_zone_some (a : ℚ) : ∃ b : ℚ, dead_zone (some a) = some b := by
  unfold dead_zone
  split
  · exact ⟨0, rfl⟩
  · exact ⟨a, rfl⟩

lemma fabsLt_some (a c : ℚ) : fabsLt (some a) c = decide (|a| < c) := rfl

/-- A value of magnitude at least 1/2 passes the dead zone unchanged. -/
lemma dead_zone_id (a : ℚ) (h : ¬ |a| < 1 / 2) : dead_zone (some a) = some a := by
  unfold dead_zone
  rw [fabsLt_some, decide_eq_false h]
  rfl

/-- Claim C3, counterexample: from the in-range state `s0`, one update with
roll rate 180 deg/s over dt = 1 s stores roll = -180, which is outside the
claimed half-open range `(-180, 180]`.  The wrap
`((roll + 180) % 360) - 180` in `OrientationTracker.update` lands in
`[-180, 180)`, hitting -180 and never +180. -/
theorem roll_wrap_hits_minus_180 :
    (update s0 (some 0) (some 180) (some 0) (some 1)).roll = some (-180) ∧
      ¬ ((-180 : ℚ) ∈ Set.Ioc (-180 : ℚ) 180) := by
  constructor
  · rw [(update_fields s0 (some 0) (some 180) (some 0) (some 1) rfl).2.2,
      show s0.bias_y = 0 from rfl, show s0.roll = some 0 from rfl,
      fsub_some, show (180 : ℚ) - 0 = 180 from by norm_num,
      dead_zone_id 180 (by norm_num)]
    show some (0 + ROLL_SIGN * 180 * 1 + 180 -
      360 * ⌊(0 + ROLL_SIGN * 180 * 1 + 180) / 360⌋ - 180) = some (-180)
    rw [show (0 + ROLL_SIGN * 180 * 1 + 180 : ℚ) = 360 by norm_num [ROLL_SIGN],
      show ((360 : ℚ) / 360) = 1 by norm_num, Int.floor_one]
    norm_num
  · simp [Set.mem_Ioc]

/-- Claim C3 (amended): after every `OrientationTracker.update` call with
finite rates and any dt, starting from any state whose angles are in range,
the stored angles satisfy yaw ∈ [0, 360), pitch ∈ [-90, 90] and
roll ∈ [-180, 180) — the roll range is half-open on the *right*, not on
the left as the claim stated. -/
theorem angles_in_range_after_update (st : TrackerState) (gx gy gz dt : ℚ)
    (y0 p0 r0 : ℚ)
    (hy : st.yaw = some y0) (hy0 : 0 ≤ y0) (hy1 : y0 < 360)
    (hp : st.pitch = some p0) (hp0 : -90 ≤ p0) (hp1 : p0 ≤ 90)
    (hr : st.roll = some r0) (hr0 : -180 ≤ r0) (hr1 : r0 < 180) :
    ∃ y p r : ℚ,
      (update st (some gx) (some gy) (some gz) (some dt)).yaw = some y ∧
      0 ≤ y ∧ y < 360 ∧
      (update st (some gx) (some gy) (some gz) (some dt)).pitch = some p ∧
      -90 ≤ p ∧ p ≤ 90 ∧
      (update st (some gx) (some gy) (some gz) (some dt)).roll = some r ∧
      -180 ≤ r ∧ r < 180 := by
  by_cases h : st.hasLast = true
  · obtain ⟨az, haz⟩ := dead_zone_some (gz - st.bias_z)
    obtain ⟨ax, hax⟩ := dead_zone_some (gx - st.bias_x)
    obtain ⟨ay, hay⟩ := dead_zone_some (gy - st.bias_y)
    obtain ⟨Ey, Ep, Er⟩ := update_fields st (some gx) (some gy) (some gz) (some dt) h
    rw [show fsub (some gz) (some st.bias_z) = some (gz - st.bias_z) from rfl,
      haz, hy] at Ey
    rw [show fsub (some gx) (some st.bias_x) = some (gx - st.bias_x) from rfl,
      hax, hp] at Ep
    rw [show fsub (some gy) (some st.bias_y) = some (gy - st.bias_y) from rfl,
      hay, hr] at Er
    have hmy := floor_mod_nonneg_lt (y0 + YAW_SIGN * az * dt) 360 (by norm_num)
    have hmr := floor_mod_nonneg_lt (r0 + ROLL_SIGN * ay * dt + 180) 360 (by norm_num)
    exact ⟨_, _, _, Ey, hmy.1, hmy.2, Ep,
      le_min (le_max_right _ _) (by norm_num), min_le_right _ _, Er,
      by linarith [hmr.1], by linarith [hmr.2]⟩
  · have hfalse : st.hasLast = false := by
      cases hb : st.hasLast
      · rfl
      · exact absurd hb h
    refine ⟨y0, p0, r0, ?_⟩
    unfold update
    rw [if_pos hfalse]
    exact ⟨hy, hy0, hy1, hp, hp0, hp1, hr, hr0, hr1⟩

/-- Witness for the amended C3 theorem at a concrete in-range state and
concrete rates. -/
theorem angles_in_range_after_update_witness :
    ∃ y p r : ℚ,
      (update s0 (some 3) (some 7) (some 400) (some 1)).yaw = some y ∧
      0 ≤ y ∧ y < 360 ∧
      (update s0 (some 3) (some 7) (some 400) (some 1)).pitch = some p ∧
      -90 ≤ p ∧ p ≤ 90 ∧
      (update s0 (some 3) (some 7) (some 400) (some 1)).roll = some r ∧
      -180 ≤ r ∧ r < 180 :=
  angles_in_range_after_update s0 3 7 400 1 0 0 0 rfl (by norm_num) (by norm_num)
    rfl (by norm_num) (by norm_num) rfl (by norm_num) (by norm_num)

/-! ### Claim C4 -/

/-- Claim C4, counterexample: an update whose x rate is NaN (`none`) is not
dropped — the stored pitch changes from `some 0` to `none` (NaN), so the
prior orientation state is not retained. -/
theorem nan_rate_not_dropped :
    s0.pitch = some 0 ∧
      (update s0 none (some 0) (some 0) (some 1)).pitch ≠ s0.pitch := by
  refine ⟨rfl, ?_⟩
  have hp : (update s0 none (some 0) (some 0) (some 1)).pitch = none := rfl
  rw [hp]
  exact fun hcontra => Option.noConfusion hcontra

/-- Claim C4 (amended): a NaN angular rate is not detected by
`OrientationTracker.update`.  The dead-zone comparison is false for NaN, so
the NaN survives bias subtraction, multiplies dt, adds into the angle of
the axis it drives, and the stored angle becomes NaN: whenever the x rate
is NaN and `_last_time` is set, the new pitch is NaN regardless of the
prior state and the other rates. -/
theorem nan_rate_propagates_to_pitch (st : TrackerState) (gy gz dt : FQ)
    (h : st.hasLast = true) :
    (update st none gy gz dt).pitch = none := by
  rw [(update_fields st none gy gz dt h).2.1]
  cases dt <;> cases hp : st.pitch <;> rfl

/-- Witness for the amended C4 theorem: concrete state with `_last_time`
set, NaN x rate, finite other rates. -/
theorem nan_rate_propagates_to_pitch_witness :
    (update s0 none (some 1) (some 2) (some 1)).pitch = none :=
  nan_rate_propagates_to_pitch s0 (some 1) (some 2) (some 1) rfl

/-! ### Claim C6 -/

/-- Claim C6: calibrating on `n ≥ 1` copies of the constant sample
`(bx, by, bz)` yields exactly that bias triple, and a subsequent
`update(bx, by, bz)` leaves yaw, pitch and roll unchanged: the bias
subtraction gives rates 0, inside the ±0.5 deg/s dead-zone, and the
wrap/clamp steps are the identity on in-range angles. -/
theorem constant_calibration_then_zero_change (st : TrackerState)
    (bx bY bz : ℚ) (n : ℕ) (hn : 1 ≤ n) (dt : ℚ) (y0 p0 r0 : ℚ)
    (hy : st.yaw = some y0) (hy0 : 0 ≤ y0) (hy1 : y0 < 360)
    (hp : st.pitch = some p0) (hp0 : -90 ≤ p0) (hp1 : p0 ≤ 90)
    (hr : st.roll = some r0) (hr0 : -180 ≤ r0) (hr1 : r0 < 180) :
    (calibrate st (List.replicate n bx) (List.replicate n bY)
        (List.replicate n bz)).bias_x = bx ∧
    (calibrate st (List.replicate n bx) (List.replicate n bY)
        (List.replicate n bz)).bias_y = bY ∧
    (calibrate st (List.replicate n bx) (List.replicate n bY)
        (List.replicate n bz)).bias_z = bz ∧
    (update (calibrate st (List.replicate n bx) (List.replicate n bY)
        (List.replicate n bz)) (some bx) (some bY) (some bz)
        (some dt)).yaw = st.yaw ∧
    (update (calibrate st (List.replicate n bx) (List.replicate n bY)
        (List.replicate n bz)) (some bx) (some bY) (some bz)
        (some dt)).pitch = st.pitch ∧
    (update (calibrate st (List.replicate n bx) (List.replicate n bY)
        (List.replicate n bz)) (some bx) (some bY) (some bz)
        (some dt)).roll = st.roll := by
  have hn0 : (n : ℚ) ≠ 0 := Nat.cast_ne_zero.mpr (by omega)
  have hmean : ∀ b : ℚ,
      (List.replicate n b).sum / ((List.replicate n b).length : ℚ) = b := by
    intro b
    rw [List.sum_replicate, List.length_replicate, nsmul_eq_mul,
      mul_comm, mul_div_assoc, div_self hn0, mul_one]
  have hdz0 : dead_zone (some 0) = some 0 := by
    unfold dead_zone
    split <;> rfl
  have hbx : (calibrate st (List.replicate n bx) (List.replicate n bY)
      (List.replicate n bz)).bias_x = bx := hmean bx
  have hby : (calibrate st (List.replicate n bx) (List.replicate n bY)
      (List.replicate n bz)).bias_y = bY := hmean bY
  have hbz : (calibrate st (List.replicate n bx) (List.replicate n bY)
      (List.replicate n bz)).bias_z = bz := hmean bz
  obtain ⟨Ey, Ep, Er⟩ := update_fields
    (calibrate st (List.replicate n bx) (List.replicate n bY)
      (List.replicate n bz)) (some bx) (some bY) (some bz) (some dt) rfl
  rw [hbz, fsub_some, sub_self, hdz0,
    show (calibrate st (List.replicate n bx) (List.replicate n bY)
      (List.replicate n bz)).yaw = st.yaw from rfl, hy,
    fmul_some, fmul_some, fadd_some, fmod_some] at Ey
  rw [hbx, fsub_some, sub_self, hdz0,
    show (calibrate st (List.replicate n bx) (List.replicate n bY)
      (List.replicate n bz)).pitch = st.pitch from rfl, hp,
    fmul_some, fmul_some, fadd_some, fclip_some] at Ep
  rw [hby, fsub_some, sub_self, hdz0,
    show (calibrate st (List.replicate n bx) (List.replicate n bY)
      (List.replicate n bz)).roll = st.roll from rfl, hr,
    fmul_some, fmul_some, fadd_some, fadd_some, fmod_some, fsub_some] at Er
  refine ⟨hbx, hby, hbz, ?_, ?_, ?_⟩
  · rw [Ey, hy, show y0 + YAW_SIGN * 0 * dt = y0 from by ring,
      floor_mod_id y0 360 hy0 hy1]
  · rw [Ep, hp, show p0 + PITCH_SIGN * 0 * dt = p0 from by ring,
      max_eq_left hp0, min_eq_left hp1]
  · rw [Er, hr, show r0 + ROLL_SIGN * 0 * dt + 180 = r0 + 180 from by ring,
      floor_mod_id (r0 + 180) 360 (by linarith) (by linarith)]
    norm_num

/-- Witness for C6: three constant samples `(3, 4, 5)`, unit dt, from the
in-range state `s0`. -/
theorem constant_calibration_then_zero_change_witness :
    (calibrate s0 (List.replicate 3 3) (List.replicate 3 4)
        (List.replicate 3 5)).bias_x = 3 ∧
    (calibrate s0 (List.replicate 3 3) (List.replicate 3 4)
        (List.replicate 3 5)).bias_y = 4 ∧
    (calibrate s0 (List.replicate 3 3) (List.replicate 3 4)
        (List.replicate 3 5)).bias_z = 5 ∧
    (update (calibrate s0 (List.replicate 3 3) (List.replicate 3 4)
        (List.replicate 3 5)) (some 3) (some 4) (some 5)
        (some 1)).yaw = s0.yaw ∧
    (update (calibrate s0 (List.replicate 3 3) (List.replicate 3 4)
        (List.replicate 3 5)) (some 3) (some 4) (some 5)
        (some 1)).pitch = s0.pitch ∧
    (update (calibrate s0 (List.replicate 3 3) (List.replicate 3 4)
        (List.replicate 3 5)) (some 3) (some 4) (some 5)
        (some 1)).roll = s0.roll :=
  constant_calibration_then_zero_change s0 3 4 5 3 (by norm_num) 1 0 0 0
    rfl (by norm_num) (by norm_num) rfl (by norm_num) (by norm_num)
    rfl (by norm_num) (by norm_num)

lemma rot_x_transpose (t : ℝ) :
    (rot_x t)ᵀ = !![1, 0, 0;
                      0, Real.cos t, Real.sin t;
                      0, -Real.sin t, Real.cos t] := by
  ext i j
  fin_cases i <;> fin_cases j <;> rfl

lemma rot_x_orth (t : ℝ) : (rot_x t)ᵀ * rot_x t = 1 := by
  rw [rot_x_transpose]
  unfold rot_x
  rw [Matrix.mul_fin_three, Matrix.one_fin_three]
  ext i j
  fin_cases i <;> fin_cases j <;>
    simp [Matrix.vecHead, Matrix.vecTail] <;>
    (ring_nf; all_goals linarith [Real.sin_sq_add_cos_sq t])

lemma rot_y_transpose (t : ℝ) :
    (rot_y t)ᵀ = !![Real.cos t, 0, -Real.sin t;
                      0, 1, 0;
                      Real.sin t, 0, Real.cos t] := by
  ext i j
  fin_cases i <;> fin_cases j <;> rfl

lemma rot_y_orth (t : ℝ) : (rot_y t)ᵀ * rot_y t = 1 := by
  rw [rot_y_transpose]
  unfold rot_y
  rw [Matrix.mul_fin_three, Matrix.one_fin_three]
  ext i j
  fin_cases i <;> fin_cases j <;>
    simp [Matrix.vecHead, Matrix.vecTail] <;>
    (ring_nf; all_goals linarith [Real.sin_sq_add_cos_sq t])

lemma rot_z_transpose (t : ℝ) :
    (rot_z t)ᵀ = !![Real.cos t, Real.sin t, 0;
                      -Real.sin t, Real.cos t, 0;
                      0, 0, 1] := by
  ext i j
  fin_cases i <;> fin_cases j <;> rfl

lemma rot_z_orth (t : ℝ) : (rot_z t)ᵀ * rot_z t = 1 := by
  rw [rot_z_transpose]
  unfold rot_z
  rw [Matrix.mul_fin_three, Matrix.one_fin_three]
  ext i j
  fin_cases i <;> fin_cases j <;>
    simp [Matrix.vecHead, Matrix.vecTail] <;>
    (ring_nf; all_goals linarith [Real.sin_sq_add_cos_sq t])

lemma rot_x_det (t : ℝ) : (rot_x t).det = 1 := by
  simp [rot_x, Matrix.det_fin_three]
  linear_combination Real.sin_sq_add_cos_sq t

lemma rot_y_det (t : ℝ) : (rot_y t).det = 1 := by
  simp [rot_y, Matrix.det_fin_three]
  linear_combination Real.sin_sq_add_cos_sq t

lemma rot_z_det (t : ℝ) : (rot_z t).det = 1 := by
  simp [rot_z, Matrix.det_fin_three]
  linear_combination Real.sin_sq_add_cos_sq t

lemma mul_orth {A B : Matrix (Fin 3) (Fin 3) ℝ}
    (hA : Aᵀ * A = 1) (hB : Bᵀ * B = 1) : (A * B)ᵀ * (A * B) = 1 := by
  rw [Matrix.transpose_mul]
  calc Bᵀ * Aᵀ * (A * B) = Bᵀ * (Aᵀ * A) * B := by
        simp only [Matrix.mul_assoc]
    _ = 1 := by rw [hA, Matrix.mul_one, hB]

/-- Claim C7: for yaw ∈ [0, 360), pitch ∈ [-90, 90], roll ∈ (-180, 180],
`gyro_to_rotation_matrix` equals `Rz(roll) · Rx(pitch) · Ry(yaw)` and is
orthonormal: transpose is a two-sided inverse, the determinant is 1, and
every row and every column has unit norm (sum of squares 1), exactly over
real arithmetic. -/
theorem rotation_matrix_orthonormal (yaw pitch roll : ℝ)
    (hy0 : 0 ≤ yaw) (hy1 : yaw < 360)
    (hp0 : -90 ≤ pitch) (hp1 : pitch ≤ 90)
    (hr0 : -180 < roll) (hr1 : roll ≤ 180) :
    gyro_to_rotation_matrix yaw pitch roll =
      rot_z (radians roll) * rot_x (radians pitch) * rot_y (radians yaw) ∧
    (gyro_to_rotation_matrix yaw pitch roll)ᵀ *
      gyro_to_rotation_matrix yaw pitch roll = 1 ∧
    gyro_to_rotation_matrix yaw pitch roll *
      (gyro_to_rotation_matrix yaw pitch roll)ᵀ = 1 ∧
    (gyro_to_rotation_matrix yaw pitch roll).det = 1 ∧
    (∀ i, ∑ j, gyro_to_rotation_matrix yaw pitch roll i j ^ 2 = 1) ∧
    (∀ j, ∑ i, gyro_to_rotation_matrix yaw pitch roll i j ^ 2 = 1) := by
  have horth : (gyro_to_rotation_matrix yaw pitch roll)ᵀ *
      gyro_to_rotation_matrix yaw pitch roll = 1 :=
    mul_orth (mul_orth (rot_z_orth _) (rot_x_orth _)) (rot_y_orth _)
  have horth2 : gyro_to_rotation_matrix yaw pitch roll *
      (gyro_to_rotation_matrix yaw pitch roll)ᵀ = 1 :=
    Matrix.mul_eq_one_comm.mp horth
  refine ⟨rfl, horth, horth2, ?_, ?_, ?_⟩
  · unfold gyro_to_rotation_matrix
    rw [Matrix.det_mul, Matrix.det_mul, rot_z_det, rot_x_det, rot_y_det]
    norm_num
  · intro i
    have h := congrArg (fun A => A i i) horth2
    simpa [Matrix.mul_apply, Matrix.transpose_apply, Matrix.one_apply, sq]
      using h
  · intro j
    have h := congrArg (fun A => A j j) horth
    simpa [Matrix.mul_apply, Matrix.transpose_apply, Matrix.one_apply, sq]
      using h

/-- Witness for C7 at yaw = 90, pitch = 0, roll = 0. -/
theorem rotation_matrix_orthonormal_witness :
    gyro_to_rotation_matrix 90 0 0 =
      rot_z (radians 0) * rot_x (radians 0) * rot_y (radians 90) ∧
    (gyro_to_rotation_matrix 90 0 0)ᵀ * gyro_to_rotation_matrix 90 0 0 = 1 ∧
    gyro_to_rotation_matrix 90 0 0 * (gyro_to_rotation_matrix 90 0 0)ᵀ = 1 ∧
    (gyro_to_rotation_matrix 90 0 0).det = 1 ∧
    (∀ i, ∑ j, gyro_to_rotation_matrix 90 0 0 i j ^ 2 = 1) ∧
    (∀ j, ∑ i, gyro_to_rotation_matrix 90 0 0 i j ^ 2 = 1) :=
  rotation_matrix_orthonormal 90 0 0 (by norm_num) (by norm_num)
    (by norm_num) (by norm_num) (by norm_num) (by norm_num)

/-! ### Claim C5 -/

/-- Claim C5: a star is visible iff `z > 0` and both `|x/z| ≤ tan(fov/2)`
and `|y/z| ≤ tan(fov/2)` (boundary inclusive); a star with `z = 0` is
never visible; and the perspective divisor is never zero thanks to the
epsilon substitution, so the normalized coordinate is always defined. -/
theorem visibility_iff (x y z fov : ℝ) (hfov : 0 < fov) :
    ((project_to_normalized_2d x y z fov).2 ↔
      0 < z ∧ |x / z| ≤ Real.tan (radians (fov / 2)) ∧
        |y / z| ≤ Real.tan (radians (fov / 2))) ∧
    (z = 0 → ¬ (project_to_normalized_2d x y z fov).2) ∧
    (if z = 0 then (1e-9 : ℝ) else z) ≠ 0 := by
  have hP : (project_to_normalized_2d x y z fov).2 =
      (0 < z ∧ |x / (if z = 0 then (1e-9 : ℝ) else z)| ≤
          Real.tan (radians (fov / 2)) ∧
        |y / (if z = 0 then (1e-9 : ℝ) else z)| ≤
          Real.tan (radians (fov / 2))) := rfl
  refine ⟨?_, ?_, ?_⟩
  · rw [hP]
    constructor
    · rintro ⟨hz, h1, h2⟩
      rw [if_neg (ne_of_gt hz)] at h1 h2
      exact ⟨hz, h1, h2⟩
    · rintro ⟨hz, h1, h2⟩
      rw [if_neg (ne_of_gt hz)]
      exact ⟨hz, h1, h2⟩
  · rw [hP]
    rintro h ⟨hz, -, -⟩
    rw [h] at hz
    exact lt_irrefl 0 hz
  · split
    · norm_num
    · assumption

/-- Witness for C5 at the concrete star `(3, 4, 5)` with FOV 30. -/
theorem visibility_iff_witness :
    ((project_to_normalized_2d 3 4 5 30).2 ↔
      0 < (5 : ℝ) ∧ |(3 : ℝ) / 5| ≤ Real.tan (radians (30 / 2)) ∧
        |(4 : ℝ) / 5| ≤ Real.tan (radians (30 / 2))) ∧
    ((5 : ℝ) = 0 → ¬ (project_to_normalized_2d 3 4 5 30).2) ∧
    (if (5 : ℝ) = 0 then (1e-9 : ℝ) else 5) ≠ 0 :=
  visibility_iff 3 4 5 30 (by norm_num)

/-! ### Claim C8 -/

lemma truncR_nonneg (x : ℝ) (h : 0 ≤ x) : truncR x = ⌊x⌋ :=
  if_neg (not_lt.mpr h)

lemma clip_floor_half (c : ℤ) (hc : 1 ≤ c) :
    min (max (truncR ((c : ℝ) / 2)) 0) (c - 1) = ⌊(c : ℝ) / 2⌋ := by
  have hc1 : (1 : ℝ) ≤ (c : ℝ) := by exact_mod_cast hc
  have h0 : (0 : ℝ) ≤ (c : ℝ) / 2 := by linarith
  rw [truncR_nonneg _ h0]
  have hf0 : 0 ≤ ⌊(c : ℝ) / 2⌋ := Int.floor_nonneg.mpr h0
  have hfc : ⌊(c : ℝ) / 2⌋ < c := Int.floor_lt.mpr (by push_cast; linarith)
  rw [max_eq_left hf0, min_eq_left (by omega)]

/-- Claim C8: a star straight ahead at camera-space `(0, 0, 1)` projects
to normalized `(0, 0)` and is visible for every FOV in `(0, 180)`, and
the LED mapping sends it to the pixel
`(floor(cols / 2), floor(rows / 2))` of the grid. -/
theorem center_star_roundtrip (fov : ℝ) (cols rows : ℤ)
    (h0 : 0 < fov) (h1 : fov < 180) (hc : 1 ≤ cols) (hr : 1 ≤ rows) :
    (project_to_normalized_2d 0 0 1 fov).1 = (0, 0) ∧
    (project_to_normalized_2d 0 0 1 fov).2 ∧
    normalize_to_led_pixel (project_to_normalized_2d 0 0 1 fov).1.1
      (project_to_normalized_2d 0 0 1 fov).1.2
      (project_to_normalized_2d 0 0 1 fov).2 cols rows =
      (⌊(cols : ℝ) / 2⌋, ⌊(rows : ℝ) / 2⌋) := by
  have hpi := Real.pi_pos
  have htan : 0 < Real.tan (radians (fov / 2)) := by
    apply Real.tan_pos_of_pos_of_lt_pi_div_two
    · unfold radians
      apply div_pos (mul_pos (by linarith) hpi) (by norm_num)
    · unfold radians
      rw [div_lt_div_iff (by norm_num) (by norm_num)]
      nlinarith
  have hzs : (if (1 : ℝ) = 0 then (1e-9 : ℝ) else 1) = 1 :=
    if_neg (by norm_num)
  have hP1 : (project_to_normalized_2d 0 0 1 fov).1 =
      (0 / (if (1 : ℝ) = 0 then (1e-9 : ℝ) else 1) /
        Real.tan (radians (fov / 2)),
       0 / (if (1 : ℝ) = 0 then (1e-9 : ℝ) else 1) /
        Real.tan (radians (fov / 2))) := rfl
  have hP2 : (project_to_normalized_2d 0 0 1 fov).2 =
      ((0 : ℝ) < 1 ∧
        |(0 : ℝ) / (if (1 : ℝ) = 0 then (1e-9 : ℝ) else 1)| ≤
          Real.tan (radians (fov / 2)) ∧
        |(0 : ℝ) / (if (1 : ℝ) = 0 then (1e-9 : ℝ) else 1)| ≤
          Real.tan (radians (fov / 2))) := rfl
  have hzero : (0 : ℝ) / (if (1 : ℝ) = 0 then (1e-9 : ℝ) else 1) /
      Real.tan (radians (fov / 2)) = 0 := by
    rw [hzs]
    simp
  have hvis : (project_to_normalized_2d 0 0 1 fov).2 := by
    rw [hP2, hzs]
    refine ⟨one_pos, ?_, ?_⟩ <;>
      simpa using le_of_lt htan
  have hproj : (project_to_normalized_2d 0 0 1 fov).1 = (0, 0) := by
    rw [hP1, hzero]
  refine ⟨hproj, hvis, ?_⟩
  rw [hproj]
  unfold normalize_to_led_pixel
  rw [if_pos hvis]
  have hcol : ((0 : ℝ) + 1) / 2 * cols = (cols : ℝ) / 2 := by ring
  have hrow : (1 - ((0 : ℝ) + 1) / 2) * rows = (rows : ℝ) / 2 := by ring
  rw [hcol, hrow, clip_floor_half cols hc, clip_floor_half rows hr]

/-- Witness for C8 at FOV 30 on the 13 × 8 LED matrix. -/
theorem center_star_roundtrip_witness :
    (project_to_normalized_2d 0 0 1 30).1 = (0, 0) ∧
    (project_to_normalized_2d 0 0 1 30).2 ∧
    normalize_to_led_pixel (project_to_normalized_2d 0 0 1 30).1.1
      (project_to_normalized_2d 0 0 1 30).1.2
      (project_to_normalized_2d 0 0 1 30).2 13 8 =
      (⌊((13 : ℤ) : ℝ) / 2⌋, ⌊((8 : ℤ) : ℝ) / 2⌋) :=
  center_star_roundtrip 30 13 8 (by norm_num) (by norm_num)
    (by norm_num) (by norm_num)

/-! ### Claim C10 -/

/-- Claim C10: for any projected coordinates (in `[-1, 1]` or not), any
visibility flag and any grid with `cols ≥ 1`, `rows ≥ 1`, the pixel of a
masked-out star is the sentinel `(-1, -1)`, and the pixel of a visible
star always satisfies `0 ≤ col ≤ cols - 1`, `0 ≤ row ≤ rows - 1`; hence
`build_led_frame` lights its cell whenever it is listed. -/
theorem led_pixel_bounds (px py : ℝ) (vis : Prop) (cols rows : ℤ)
    (hc : 1 ≤ cols) (hr : 1 ≤ rows) :
    (¬ vis → normalize_to_led_pixel px py vis cols rows = (-1, -1)) ∧
    (vis →
      0 ≤ (normalize_to_led_pixel px py vis cols rows).1 ∧
      (normalize_to_led_pixel px py vis cols rows).1 ≤ cols - 1 ∧
      0 ≤ (normalize_to_led_pixel px py vis cols rows).2 ∧
      (normalize_to_led_pixel px py vis cols rows).2 ≤ rows - 1 ∧
      ∀ L : List ((ℤ × ℤ) × Bool),
        (normalize_to_led_pixel px py vis cols rows, true) ∈ L →
        build_led_frame L cols rows
          (normalize_to_led_pixel px py vis cols rows).2
          (normalize_to_led_pixel px py vis cols rows).1) := by
  constructor
  · intro hnv
    unfold normalize_to_led_pixel
    rw [if_neg hnv]
  · intro hv
    have hpx : normalize_to_led_pixel px py vis cols rows =
        (min (max (truncR ((px + 1) / 2 * cols)) 0) (cols - 1),
         min (max (truncR ((1 - (py + 1) / 2) * rows)) 0) (rows - 1)) := by
      unfold normalize_to_led_pixel
      rw [if_pos hv]
    have b1 : 0 ≤ (normalize_to_led_pixel px py vis cols rows).1 := by
      rw [hpx]
      exact le_min (le_max_right _ _) (by omega)
    have b2 : (normalize_to_led_pixel px py vis cols rows).1 ≤ cols - 1 := by
      rw [hpx]
      exact min_le_right _ _
    have b3 : 0 ≤ (normalize_to_led_pixel px py vis cols rows).2 := by
      rw [hpx]
      exact le_min (le_max_right _ _) (by omega)
    have b4 : (normalize_to_led_pixel px py vis cols rows).2 ≤ rows - 1 := by
      rw [hpx]
      exact min_le_right _ _
    refine ⟨b1, b2, b3, b4, ?_⟩
    intro L hmem
    exact ⟨_, hmem, rfl, rfl, rfl, b3, by omega, b1, by omega⟩

/-- Witness for C10: an out-of-range projected point on the 13 × 8 grid,
with a singleton pixel list. -/
theorem led_pixel_bounds_witness :
    (¬ True → normalize_to_led_pixel 7 (-9) True 13 8 = (-1, -1)) ∧
    (True →
      0 ≤ (normalize_to_led_pixel 7 (-9) True 13 8).1 ∧
      (normalize_to_led_pixel 7 (-9) True 13 8).1 ≤ 13 - 1 ∧
      0 ≤ (normalize_to_led_pixel 7 (-9) True 13 8).2 ∧
      (normalize_to_led_pixel 7 (-9) True 13 8).2 ≤ 8 - 1 ∧
      ∀ L : List ((ℤ × ℤ) × Bool),
        (normalize_to_led_pixel 7 (-9) True 13 8, true) ∈ L →
        build_led_frame L 13 8
          (normalize_to_led_pixel 7 (-9) True 13 8).2
          (normalize_to_led_pixel 7 (-9) True 13 8).1) :=
  led_pixel_bounds 7 (-9) True 13 8 (by norm_num) (by norm_num)

lemma lookup_distance_none (tx ty tz yaw pitch roll fov : ℝ) :
    (get_direction_to_star tx ty tz yaw pitch roll fov).lookup
      distance_key = none := rfl

lemma radians_zero : radians 0 = 0 := by
  unfold radians
  ring

lemma radians_ninety : radians 90 = Real.pi / 2 := by
  unfold radians
  ring

lemma rot_x_zero : rot_x 0 = 1 := by
  ext i j
  fin_cases i <;> fin_cases j <;>
    simp [rot_x, Matrix.one_apply, Matrix.vecHead, Matrix.vecTail]

lemma rot_y_zero : rot_y 0 = 1 := by
  ext i j
  fin_cases i <;> fin_cases j <;>
    simp [rot_y, Matrix.one_apply, Matrix.vecHead, Matrix.vecTail]

lemma rot_z_zero : rot_z 0 = 1 := by
  ext i j
  fin_cases i <;> fin_cases j <;>
    simp [rot_z, Matrix.one_apply, Matrix.vecHead, Matrix.vecTail]

lemma camera_at_yaw_90 :
    star_camera 0 0 1 90 0 0 = ![1, 0, 0] := by
  have hM : gyro_to_rotation_matrix 90 0 0 = rot_y (Real.pi / 2) := by
    unfold gyro_to_rotation_matrix
    rw [radians_zero, radians_ninety, rot_z_zero, rot_x_zero,
      Matrix.one_mul, Matrix.one_mul]
  unfold star_camera
  rw [hM]
  funext i
  fin_cases i <;>
    simp [rot_y, Matrix.mulVec, Matrix.dotProduct, Fin.sum_univ_three,
      Real.cos_pi_div_two, Real.sin_pi_div_two]

/-- Claim C1: the dict returned by `get_direction_to_star` holds the
`angle` and `in_view` entries but no `distance` key at all — although
`record_sensor_gyro` reads `direction["distance"]` and the spec requires
`distance = degrees(acos(clamp(z, -1, 1)))`.  At the claimed scenario
(target `(0,0,1)`, yaw 90°, pitch 0, roll 0) the rotated target has
camera z = 0, the star is out of view, and the spec-mandated distance
value would be exactly 90. -/
theorem direction_result_missing_distance :
    (get_direction_to_star 0 0 1 90 0 0 30).lookup distance_key = none ∧
    (get_direction_to_star 0 0 1 90 0 0 30).lookup angle_key =
      some (PyVal.real (dir_angle 0 0 1 90 0 0)) ∧
    (get_direction_to_star 0 0 1 90 0 0 30).lookup in_view_key =
      some (PyVal.flag (dir_in_view 0 0 1 90 0 0 30)) ∧
    ¬ dir_in_view 0 0 1 90 0 0 30 ∧
    star_camera 0 0 1 90 0 0 2 = 0 ∧
    spec_distance (star_camera 0 0 1 90 0 0 2) = 90 := by
  have hcam2 : star_camera 0 0 1 90 0 0 2 = 0 := by
    rw [camera_at_yaw_90]
    rfl
  refine ⟨rfl, rfl, rfl, ?_, hcam2, ?_⟩
  · rintro ⟨hz, -, -⟩
    rw [hcam2] at hz
    exact lt_irrefl 0 hz
  · rw [hcam2]
    unfold spec_distance clipR degrees
    rw [show min (max (0 : ℝ) (-1)) 1 = 0 by norm_num, Real.arccos_zero]
    field_simp
    ring

/-- Claim C2, counterexample: with an active lock on target `(0, 0, 1)`
and the in-view sample yaw = pitch = roll = 0 (the target is dead ahead,
`in_view` holds), the find-star step leaves `find_star_mode = true` — the
lock does not transition from Seeking to Idle — and emits no `star_found`
message (the branch dies on the missing `distance` key). -/
theorem in_view_sample_does_not_consume_lock :
    dir_in_view 0 0 1 0 0 0 30 ∧
    record_gyro_find_step (some (0, 0, 1)) true 0 0 0 = (true, 0) := by
  constructor
  · have hM : gyro_to_rotation_matrix 0 0 0 = 1 := by
      unfold gyro_to_rotation_matrix
      rw [radians_zero, rot_z_zero, rot_x_zero, rot_y_zero,
        Matrix.one_mul, Matrix.one_mul]
    have hcam : star_camera 0 0 1 0 0 0 = ![0, 0, 1] := by
      unfold star_camera
      rw [hM, Matrix.one_mulVec]
    have htan : 0 < Real.tan (radians (30 / 2)) := by
      have hpi := Real.pi_pos
      apply Real.tan_pos_of_pos_of_lt_pi_div_two
      · unfold radians
        norm_num
        linarith
      · unfold radians
        rw [div_lt_div_iff (by norm_num) (by norm_num)]
        nlinarith
    refine ⟨?_, ?_, ?_⟩ <;>
      rw [hcam] <;>
      simp <;>
      linarith
  · rfl

/-- Claim C2 (amended): no gyro sample ever consumes the lock or emits a
`star_found` message: `record_sensor_gyro` never assigns
`find_star_mode`, and its find-star branch aborts on the missing
`distance` key before the `star_found` emission, so the step is always
`(mode, 0)`; only `cancel_find_star` returns the machine to Idle. -/
theorem lock_never_consumed_by_gyro_samples (target : Option (ℝ × ℝ × ℝ))
    (mode : Bool) (yaw pitch roll : ℝ) :
    record_gyro_find_step target mode yaw pitch roll = (mode, 0) ∧
    cancel_find_star (mode, target) = (false, none) := by
  constructor
  · cases mode <;> cases target <;> rfl
  · rfl

lemma truncR_eq (x : ℝ) (n : ℤ) (h0 : 0 ≤ x) (h1 : (n : ℝ) ≤ x)
    (h2 : x < n + 1) : truncR x = n := by
  rw [truncR_nonneg x h0, Int.floor_eq_iff]
  exact ⟨h1, by exact_mod_cast h2⟩

lemma clipR_id (x lo hi : ℝ) (h1 : lo ≤ x) (h2 : x ≤ hi) :
    clipR x lo hi = x := by
  unfold clipR
  rw [max_eq_left h1, min_eq_left h2]

lemma dir_dx_zero : dir_dx 0 = 1 := by
  unfold dir_dx
  rw [radians_zero, Real.cos_zero]

lemma dir_dy_zero : dir_dy 0 = 0 := by
  unfold dir_dy
  rw [radians_zero, Real.sin_zero, neg_zero]

lemma dir_cx_13 : dir_cx 13 = 6 := by
  unfold dir_cx
  norm_num

lemma dir_cy_8 : dir_cy 8 = 7 / 2 := by
  unfold dir_cy
  norm_num

lemma dir_t1_zero_13 : dir_t1 0 13 = 6 := by
  unfold dir_t1
  rw [dir_dx_zero, dir_cx_13]
  norm_num [min_def]

lemma dir_max_t_east : dir_max_t 0 13 8 = 6 := by
  unfold dir_max_t
  rw [dir_dy_zero, dir_t1_zero_13]
  norm_num

lemma dir_tip_c_east : dir_tip_c 0 13 8 = 12 := by
  unfold dir_tip_c
  rw [dir_dx_zero, dir_max_t_east, dir_cx_13]
  rw [clipR_id _ _ _ (by norm_num) (by norm_num)]
  apply truncR_eq _ _ (by norm_num) (by norm_num) (by norm_num)

lemma dir_tip_r_east : dir_tip_r 0 13 8 = 4 := by
  unfold dir_tip_r
  rw [dir_dy_zero, dir_max_t_east, dir_cy_8]
  rw [clipR_id _ _ _ (by norm_num) (by norm_num)]
  apply truncR_eq _ _ (by norm_num) (by norm_num) (by norm_num)

lemma dir_ctr_c_13 : dir_ctr_c 13 = 6 := by
  unfold dir_ctr_c
  rw [dir_cx_13]
  apply truncR_eq _ _ (by norm_num) (by norm_num) (by norm_num)

lemma dir_ctr_r_8 : dir_ctr_r 8 = 4 := by
  unfold dir_ctr_r
  rw [dir_cy_8]
  apply truncR_eq _ _ (by norm_num) (by norm_num) (by norm_num)

lemma cos_barb_neg : Real.cos (dir_barb_angle 0 (-1)) = -(Real.sqrt 2 / 2) := by
  unfold dir_barb_angle
  rw [radians_zero,
    show (0 : ℝ) + Real.pi + -1 * (Real.pi / 4) = Real.pi - Real.pi / 4 by ring,
    Real.cos_pi_sub, Real.cos_pi_div_four]

lemma sin_barb_neg : Real.sin (dir_barb_angle 0 (-1)) = Real.sqrt 2 / 2 := by
  unfold dir_barb_angle
  rw [radians_zero,
    show (0 : ℝ) + Real.pi + -1 * (Real.pi / 4) = Real.pi - Real.pi / 4 by ring,
    Real.sin_pi_sub, Real.sin_pi_div_four]

lemma cos_barb_pos : Real.cos (dir_barb_angle 0 1) = -(Real.sqrt 2 / 2) := by
  unfold dir_barb_angle
  rw [radians_zero,
    show (0 : ℝ) + Real.pi + 1 * (Real.pi / 4) =
      Real.pi - -(Real.pi / 4) by ring,
    Real.cos_pi_sub, Real.cos_neg, Real.cos_pi_div_four]

lemma sin_barb_pos : Real.sin (dir_barb_angle 0 1) = -(Real.sqrt 2 / 2) := by
  unfold dir_barb_angle
  rw [radians_zero,
    show (0 : ℝ) + Real.pi + 1 * (Real.pi / 4) =
      Real.pi - -(Real.pi / 4) by ring,
    Real.sin_pi_sub, Real.sin_neg, Real.sin_pi_div_four]

lemma sqrt_two_bounds : (7 : ℝ) / 5 < Real.sqrt 2 ∧ Real.sqrt 2 < 3 / 2 := by
  have hsq : Real.sqrt 2 ^ 2 = 2 := Real.sq_sqrt (by norm_num)
  have h0 := Real.sqrt_nonneg 2
  constructor <;> nlinarith

lemma dir_barb_c_east_neg : dir_barb_c 0 13 8 (-1) = 10 := by
  obtain ⟨hs1, hs2⟩ := sqrt_two_bounds
  unfold dir_barb_c
  rw [dir_tip_c_east, cos_barb_neg,
    show ((12 : ℤ) : ℝ) = 12 by norm_num]
  rw [clipR_id _ _ _ (by nlinarith) (by nlinarith)]
  apply truncR_eq _ _ (by nlinarith) (by push_cast; nlinarith)
    (by push_cast; nlinarith)

lemma dir_barb_r_east_neg : dir_barb_r 0 13 8 (-1) = 2 := by
  obtain ⟨hs1, hs2⟩ := sqrt_two_bounds
  unfold dir_barb_r
  rw [dir_tip_r_east, sin_barb_neg,
    show ((4 : ℤ) : ℝ) = 4 by norm_num]
  rw [clipR_id _ _ _ (by nlinarith) (by nlinarith)]
  apply truncR_eq _ _ (by nlinarith) (by push_cast; nlinarith)
    (by push_cast; nlinarith)

lemma dir_barb_c_east_pos : dir_barb_c 0 13 8 1 = 10 := by
  obtain ⟨hs1, hs2⟩ := sqrt_two_bounds
  unfold dir_barb_c
  rw [dir_tip_c_east, cos_barb_pos,
    show ((12 : ℤ) : ℝ) = 12 by norm_num]
  rw [clipR_id _ _ _ (by nlinarith) (by nlinarith)]
  apply truncR_eq _ _ (by nlinarith) (by push_cast; nlinarith)
    (by push_cast; nlinarith)

lemma dir_barb_r_east_pos : dir_barb_r 0 13 8 1 = 6 := by
  obtain ⟨hs1, hs2⟩ := sqrt_two_bounds
  unfold dir_barb_r
  rw [dir_tip_r_east, sin_barb_pos,
    show ((4 : ℤ) : ℝ) = 4 by norm_num]
  rw [clipR_id _ _ _ (by nlinarith) (by nlinarith)]
  apply truncR_eq _ _ (by nlinarith) (by push_cast; nlinarith)
    (by push_cast; nlinarith)

lemma direction_frame_east (r c : ℤ) :
    build_direction_frame 0 13 8 r c ↔
      ((r, c) ∈ bresenham 4 6 4 12 ∨
       (r, c) ∈ bresenham 4 12 2 10 ∨
       (r, c) ∈ bresenham 4 12 6 10) := by
  unfold build_direction_frame
  rw [dir_ctr_r_8, dir_ctr_c_13, dir_tip_r_east, dir_tip_c_east,
    dir_barb_r_east_neg, dir_barb_c_east_neg, dir_barb_r_east_pos,
    dir_barb_c_east_pos]

/-- Claim C9: `build_direction_frame` at bearing 0° on the 13 × 8 matrix
draws the horizontal shaft in row 4 from the center column 6 all the way
to the right edge — every cell `(4, 6) … (4, 12)` is lit, the rightmost
column 12 included — and the chevron is two 3-cell strokes drawn back
from the tip `(4, 12)` at ±135°, through `(3, 11), (2, 10)` and
`(5, 11), (6, 10)`, which are lit as well. -/
theorem direction_arrow_east_frame :
    bresenham 4 6 4 12 =
      [(4, 6), (4, 7), (4, 8), (4, 9), (4, 10), (4, 11), (4, 12)] ∧
    bresenham 4 12 2 10 = [(4, 12), (3, 11), (2, 10)] ∧
    bresenham 4 12 6 10 = [(4, 12), (5, 11), (6, 10)] ∧
    build_direction_frame 0 13 8 4 6 ∧
    build_direction_frame 0 13 8 4 7 ∧
    build_direction_frame 0 13 8 4 8 ∧
    build_direction_frame 0 13 8 4 9 ∧
    build_direction_frame 0 13 8 4 10 ∧
    build_direction_frame 0 13 8 4 11 ∧
    build_direction_frame 0 13 8 4 12 ∧
    build_direction_frame 0 13 8 3 11 ∧
    build_direction_frame 0 13 8 2 10 ∧
    build_direction_frame 0 13 8 5 11 ∧
    build_direction_frame 0 13 8 6 10 := by
  refine ⟨by decide, by decide, by decide, ?_, ?_, ?_, ?_, ?_, ?_, ?_,
    ?_, ?_, ?_, ?_⟩ <;>
    rw [direction_frame_east] <;> decide

end

end Viewfinder
